import Mathlib

/-!
Shallow embedding of the MetaMorpho event reconciliation engine
(`apps/ponder/src/MetaMorpho.ts`) and proofs about its handlers.

The entity store (ponder tables) is modelled as association lists keyed by
the same primary keys as the schema: `vault` by (chainId, address),
`vaultBalance` by (chainId, vault, user), `vaultConfigItem` by
(chainId, address, marketId), the queue-item tables by
(chainId, address, ordinal), and `transaction` by (chainId, hash, logIndex).
Database operations are modelled after ponder's store API:
`db.update` fails when no row matches the key, `db.insert ... values`
fails on a primary-key conflict, and
`db.insert ... values ... onConflictDoUpdate` is an upsert that merges
into an existing row.  A handler returns `Option Store`: `none` models an
error propagating out of the handler, `some s` a successful (atomic)
application.  On-chain integers (JavaScript bigint) are modelled as `Int`.
-/

set_option autoImplicit false

namespace Ponder

abbrev Addr := Nat

def zeroAddress : Addr := 0

abbrev ChainId := Nat

abbrev MarketId := Nat

/-- A database table: an association list from primary key to row. -/
abbrev Table (K V : Type) : Type := List (K × V)

/-- `db.find(table, key)`: the row at `key`, if any. -/
def findRow {K V : Type} [DecidableEq K] : Table K V → K → Option V
  | [], _ => none
  | (k', v) :: rest, k => if k' = k then some v else findRow rest k

/-- `db.update(table, key).set(f)`: ponder's update throws
`No existing record found` when no row matches the key, modelled as `none`. -/
def updateRow {K V : Type} [DecidableEq K] : Table K V → K → (V → V) → Option (Table K V)
  | [], _, _ => none
  | (k', v) :: rest, k, f =>
      if k' = k then some ((k', f v) :: rest)
      else (updateRow rest k f).map (fun t => (k', v) :: t)

/-- `db.insert(table).values(v).onConflictDoUpdate(f)`: insert `v` when the
key is absent, otherwise merge the existing row with `f`. -/
def upsert {K V : Type} [DecidableEq K] : Table K V → K → V → (V → V) → Table K V
  | [], k, v, _ => [(k, v)]
  | (k', v') :: rest, k, v, f =>
      if k' = k then (k', f v') :: rest else (k', v') :: upsert rest k v f

/-- `db.insert(table).values(v)` with no conflict clause: a primary-key
conflict is a unique-constraint error, modelled as `none`. -/
def insertRow {K V : Type} [DecidableEq K] (t : Table K V) (k : K) (v : V) :
    Option (Table K V) :=
  match findRow t k with
  | some _ => none
  | none => some (t ++ [(k, v)])

/-- The `vault` table row (one per (chainId, address)). -/
structure VaultRow where
  asset : Addr
  decimalsUnderlying : Nat
  decimalsOffset : Nat
  owner : Addr
  pendingOwner : Addr
  curator : Addr
  guardian : Addr
  pendingGuardian : Addr
  pendingGuardianValidAt : Int
  timelock : Int
  pendingTimelock : Int
  pendingTimelockValidAt : Int
  fee : Int
  feeRecipient : Addr
  skimRecipient : Addr
  name : String
  symbol : String
  totalSupply : Int
  lastTotalAssets : Int
  lostAssets : Int
  supplyQueueLength : Nat
  withdrawQueueLength : Nat
  allocators : List Addr
  deriving DecidableEq

/-- The `vaultConfigItem` table row (one per (chainId, address, marketId)). -/
structure ConfigRow where
  cap : Int
  pendingCap : Int
  pendingCapValidAt : Int
  enabled : Bool
  removableAt : Int
  deriving DecidableEq

/-- The `type` column of the `transaction` table. -/
inductive TxType where
  | metaMorphoDeposit
  | metaMorphoWithdraw
  | metaMorphoFee
  | vaultReallocateSupply
  | vaultReallocateWithdraw
  | metaMorphoTransfer
  deriving DecidableEq

/-- A `transaction` table row (keyed by (chainId, hash, logIndex)). -/
structure TxRow where
  blockNumber : Int
  timestamp : Int
  type : TxType
  user : Addr
  sender : Addr
  receiver : Option Addr
  vaultAddress : Addr
  marketId : Option MarketId
  vaultShares : Int
  vaultAssets : Int
  deriving DecidableEq

/-- The entity store: the tables written by the MetaMorpho handlers. -/
structure Store where
  vaults : Table (ChainId × Addr) VaultRow
  vaultBalances : Table (ChainId × Addr × Addr) Int
  vaultConfigItems : Table (ChainId × Addr × MarketId) ConfigRow
  vaultSupplyQueueItems : Table (ChainId × Addr × Nat) (Option MarketId)
  vaultWithdrawQueueItems : Table (ChainId × Addr × Nat) (Option MarketId)
  transactions : Table (ChainId × Nat × Nat) TxRow
  deriving DecidableEq

/-- The per-event data every handler receives: `context.chain.id`,
`event.log.address`, `event.block.*`, `event.transaction.hash`,
`event.log.logIndex`. -/
structure EventCtx where
  chainId : ChainId
  address : Addr
  blockNumber : Int
  timestamp : Int
  hash : Nat
  logIndex : Nat
  deriving DecidableEq

/-- The vault timelock read at the start of the Submit* handlers:
`(await context.db.find(vault, ...)) ?? { timelock: 0n }`. -/
def vaultTimelock (s : Store) (c : ChainId) (a : Addr) : Int :=
  match findRow s.vaults (c, a) with
  | some row => row.timelock
  | none => 0

/-- `MetaMorpho:OwnershipTransferred`: update owner and clear pendingOwner;
the `No existing record found` error is caught and swallowed (the event can
be emitted in the vault's constructor), so a missing row is a no-op. -/
def onOwnershipTransferred (ev : EventCtx) (newOwner : Addr) (s : Store) : Option Store :=
  match updateRow s.vaults (ev.chainId, ev.address)
      (fun row => { row with owner := newOwner, pendingOwner := zeroAddress }) with
  | some vaults' => some { s with vaults := vaults' }
  | none => some s

/-- `MetaMorpho:SetName` (missing-row error caught and swallowed). -/
def onSetName (ev : EventCtx) (newName : String) (s : Store) : Option Store :=
  match updateRow s.vaults (ev.chainId, ev.address)
      (fun row => { row with name := newName }) with
  | some vaults' => some { s with vaults := vaults' }
  | none => some s

/-- `MetaMorpho:SetSymbol` (missing-row error caught and swallowed). -/
def onSetSymbol (ev : EventCtx) (newSymbol : String) (s : Store) : Option Store :=
  match updateRow s.vaults (ev.chainId, ev.address)
      (fun row => { row with symbol := newSymbol }) with
  | some vaults' => some { s with vaults := vaults' }
  | none => some s

/-- `MetaMorpho:SetTimelock` (missing-row error caught and swallowed). -/
def onSetTimelock (ev : EventCtx) (newTimelock : Int) (s : Store) : Option Store :=
  match updateRow s.vaults (ev.chainId, ev.address)
      (fun row => { row with timelock := newTimelock, pendingTimelock := 0,
                             pendingTimelockValidAt := 0 }) with
  | some vaults' => some { s with vaults := vaults' }
  | none => some s

/-- `MetaMorpho:SubmitCap`: upsert the config item; the inserted row's `cap`
column is left to the schema default 0 (the insert in the source sets only
pendingCap, pendingCapValidAt, enabled, removableAt). -/
def onSubmitCap (ev : EventCtx) (marketId : MarketId) (cap : Int) (s : Store) : Store :=
  let timelock := vaultTimelock s ev.chainId ev.address
  let items :=
    upsert s.vaultConfigItems (ev.chainId, ev.address, marketId)
      ({ cap := 0, pendingCap := cap, pendingCapValidAt := ev.timestamp + timelock,
         enabled := false, removableAt := 0 })
      (fun row => { row with pendingCap := cap,
                             pendingCapValidAt := ev.timestamp + timelock })
  { s with vaultConfigItems := items }

/-- `MetaMorpho:SubmitGuardian`: a plain `db.update` on the vault row. -/
def onSubmitGuardian (ev : EventCtx) (newGuardian : Addr) (s : Store) : Option Store :=
  let timelock := vaultTimelock s ev.chainId ev.address
  match updateRow s.vaults (ev.chainId, ev.address)
      (fun row => { row with pendingGuardian := newGuardian,
                             pendingGuardianValidAt := ev.timestamp + timelock }) with
  | some vaults' => some { s with vaults := vaults' }
  | none => none

/-- `MetaMorpho:SubmitMarketRemoval`: a plain `db.update` on the config item
(not an upsert), setting `removableAt`. -/
def onSubmitMarketRemoval (ev : EventCtx) (marketId : MarketId) (s : Store) : Option Store :=
  let timelock := vaultTimelock s ev.chainId ev.address
  match updateRow s.vaultConfigItems (ev.chainId, ev.address, marketId)
      (fun row => { row with removableAt := ev.timestamp + timelock }) with
  | some items' => some { s with vaultConfigItems := items' }
  | none => none

/-- `MetaMorpho:RevokePendingCap`: upsert, zeroing the pending-cap pair. -/
def onRevokePendingCap (ev : EventCtx) (marketId : MarketId) (s : Store) : Store :=
  let items :=
    upsert s.vaultConfigItems (ev.chainId, ev.address, marketId)
      ({ cap := 0, pendingCap := 0, pendingCapValidAt := 0,
         enabled := false, removableAt := 0 })
      (fun row => { row with pendingCap := 0, pendingCapValidAt := 0 })
  { s with vaultConfigItems := items }

/-- `MetaMorpho:SetCap`: update cap, clear the pending pair, and when the new
cap is positive also set `enabled` and clear `removableAt`
(`...(event.args.cap > 0n ? { enabled: true, removableAt: 0n } : {})`). -/
def onSetCap (ev : EventCtx) (marketId : MarketId) (cap : Int) (s : Store) : Option Store :=
  match updateRow s.vaultConfigItems (ev.chainId, ev.address, marketId)
      (fun row =>
        if cap > 0 then
          { row with cap := cap, pendingCap := 0, pendingCapValidAt := 0,
                     enabled := true, removableAt := 0 }
        else
          { row with cap := cap, pendingCap := 0, pendingCapValidAt := 0 }) with
  | some items' => some { s with vaultConfigItems := items' }
  | none => none

/-- `getQueueItems`: one row per ordinal in `[0, max(oldLength, newLength))`,
with `marketId = newQueue.at(ordinal) ?? null`. -/
def getQueueItems (chainId : ChainId) (address : Addr) (oldLength : Nat)
    (newQueue : List MarketId) : List ((ChainId × Addr × Nat) × Option MarketId) :=
  (List.range (max oldLength newQueue.length)).map
    (fun ordinal => ((chainId, address, ordinal), newQueue.get? ordinal))

/-- The conflict-update clause of the queue-item upsert:
`values.at(row.ordinal)?.marketId ?? null`. -/
def conflictMarketId (values : List ((ChainId × Addr × Nat) × Option MarketId))
    (ordinal : Nat) : Option MarketId :=
  match values.get? ordinal with
  | some item => item.2
  | none => none

/-- `db.insert(queueItemTable).values(values).onConflictDoUpdate(...)`:
each row of `values` is upserted in order. -/
def upsertQueueItems (values : List ((ChainId × Addr × Nat) × Option MarketId))
    (t : Table (ChainId × Addr × Nat) (Option MarketId)) :
    Table (ChainId × Addr × Nat) (Option MarketId) :=
  values.foldl
    (fun acc item => upsert acc item.1 item.2 (fun _ => conflictMarketId values item.1.2.2)) t

/-- `MetaMorpho:SetSupplyQueue`: the source reads the old length inside the
vault-update callback and then writes the new length; here the read and the
write are the two halves of the same update. -/
def onSetSupplyQueue (ev : EventCtx) (newSupplyQueue : List MarketId) (s : Store) :
    Option Store :=
  match findRow s.vaults (ev.chainId, ev.address) with
  | none => none
  | some row =>
      match updateRow s.vaults (ev.chainId, ev.address)
          (fun r => { r with supplyQueueLength := newSupplyQueue.length }) with
      | none => none
      | some vaults' =>
          let values := getQueueItems ev.chainId ev.address row.supplyQueueLength newSupplyQueue
          some { s with vaults := vaults',
                        vaultSupplyQueueItems := upsertQueueItems values s.vaultSupplyQueueItems }

/-- `MetaMorpho:SetWithdrawQueue` (same shape as the supply-queue handler). -/
def onSetWithdrawQueue (ev : EventCtx) (newWithdrawQueue : List MarketId) (s : Store) :
    Option Store :=
  match findRow s.vaults (ev.chainId, ev.address) with
  | none => none
  | some row =>
      match updateRow s.vaults (ev.chainId, ev.address)
          (fun r => { r with withdrawQueueLength := newWithdrawQueue.length }) with
      | none => none
      | some vaults' =>
          let values := getQueueItems ev.chainId ev.address row.withdrawQueueLength newWithdrawQueue
          some { s with vaults := vaults',
                        vaultWithdrawQueueItems := upsertQueueItems values s.vaultWithdrawQueueItems }

/-- `MetaMorpho:Deposit`: `if (event.args.shares === 0n) return;` then a
transaction insert only (balances are updated by the Transfer event). -/
def onDeposit (ev : EventCtx) (sender owner : Addr) (assets shares : Int) (s : Store) :
    Option Store :=
  if shares = 0 then some s
  else
    match insertRow s.transactions (ev.chainId, ev.hash, ev.logIndex)
        { blockNumber := ev.blockNumber, timestamp := ev.timestamp,
          type := TxType.metaMorphoDeposit, user := owner, sender := sender,
          receiver := none, vaultAddress := ev.address, marketId := none,
          vaultShares := shares, vaultAssets := assets } with
    | some txs => some { s with transactions := txs }
    | none => none

/-- `MetaMorpho:Withdraw`: zero-share guard, then a transaction insert only. -/
def onWithdraw (ev : EventCtx) (sender receiver owner : Addr) (assets shares : Int)
    (s : Store) : Option Store :=
  if shares = 0 then some s
  else
    match insertRow s.transactions (ev.chainId, ev.hash, ev.logIndex)
        { blockNumber := ev.blockNumber, timestamp := ev.timestamp,
          type := TxType.metaMorphoWithdraw, user := owner, sender := sender,
          receiver := some receiver, vaultAddress := ev.address, marketId := none,
          vaultShares := shares, vaultAssets := assets } with
    | some txs => some { s with transactions := txs }
    | none => none

/-- `MetaMorpho:AccrueInterest`: zero-fee-share guard; then
`if (!vaultRecord) return;` — a missing vault row is silently skipped;
otherwise a fee transaction is recorded with the conversion result. -/
def onAccrueInterest (convertToAssets : Int → Int) (ev : EventCtx) (feeShares : Int)
    (s : Store) : Option Store :=
  if feeShares = 0 then some s
  else
    match findRow s.vaults (ev.chainId, ev.address) with
    | none => some s
    | some vaultRecord =>
        let feeAssets := convertToAssets feeShares
        match insertRow s.transactions (ev.chainId, ev.hash, ev.logIndex)
            { blockNumber := ev.blockNumber, timestamp := ev.timestamp,
              type := TxType.metaMorphoFee, user := vaultRecord.feeRecipient,
              sender := zeroAddress, receiver := none, vaultAddress := ev.address,
              marketId := none, vaultShares := feeShares, vaultAssets := feeAssets } with
        | some txs => some { s with transactions := txs }
        | none => none

/-- `MetaMorpho:ReallocateSupply`: unconditional transaction insert
(there is no zero-amount guard in this handler). -/
def onReallocateSupply (ev : EventCtx) (caller : Addr) (marketId : MarketId)
    (suppliedAssets suppliedShares : Int) (s : Store) : Option Store :=
  match insertRow s.transactions (ev.chainId, ev.hash, ev.logIndex)
      { blockNumber := ev.blockNumber, timestamp := ev.timestamp,
        type := TxType.vaultReallocateSupply, user := caller, sender := caller,
        receiver := none, vaultAddress := ev.address, marketId := some marketId,
        vaultShares := suppliedShares, vaultAssets := suppliedAssets } with
  | some txs => some { s with transactions := txs }
  | none => none

/-- `MetaMorpho:ReallocateWithdraw`: unconditional transaction insert
(no zero-amount guard). -/
def onReallocateWithdraw (ev : EventCtx) (caller : Addr) (marketId : MarketId)
    (withdrawnAssets withdrawnShares : Int) (s : Store) : Option Store :=
  match insertRow s.transactions (ev.chainId, ev.hash, ev.logIndex)
      { blockNumber := ev.blockNumber, timestamp := ev.timestamp,
        type := TxType.vaultReallocateWithdraw, user := caller, sender := caller,
        receiver := none, vaultAddress := ev.address, marketId := some marketId,
        vaultShares := withdrawnShares, vaultAssets := withdrawnAssets } with
  | some txs => some { s with transactions := txs }
  | none => none

/-- `MetaMorpho:Transfer`: zero-value guard; mint branch (from = 0x0)
increments totalSupply and upserts the recipient balance; burn branch
(to = 0x0) decrements totalSupply and the sender balance; otherwise moves
the value between the two balances, classifies the event as a fee
distribution when the recipient is the vault's fee recipient, converts the
value to assets, and records a transaction. -/
def onTransfer (convertToAssets : Int → Int) (ev : EventCtx)
    (fromAddr toAddr : Addr) (value : Int) (s : Store) : Option Store :=
  if value = 0 then some s
  else if fromAddr = zeroAddress then
    match updateRow s.vaults (ev.chainId, ev.address)
        (fun row => { row with totalSupply := row.totalSupply + value }) with
    | none => none
    | some vaults' =>
        some { s with
          vaults := vaults',
          vaultBalances :=
            upsert s.vaultBalances (ev.chainId, ev.address, toAddr) value
              (fun shares => shares + value) }
  else if toAddr = zeroAddress then
    match updateRow s.vaults (ev.chainId, ev.address)
        (fun row => { row with totalSupply := row.totalSupply - value }),
      updateRow s.vaultBalances (ev.chainId, ev.address, fromAddr)
        (fun shares => shares - value) with
    | some vaults', some balances' =>
        some { s with vaults := vaults', vaultBalances := balances' }
    | _, _ => none
  else
    match updateRow s.vaultBalances (ev.chainId, ev.address, fromAddr)
        (fun shares => shares - value) with
    | none => none
    | some balances1 =>
        let balances2 :=
          upsert balances1 (ev.chainId, ev.address, toAddr) value
            (fun shares => shares + value)
        let isFee : Bool :=
          match findRow s.vaults (ev.chainId, ev.address) with
          | some row => decide (toAddr = row.feeRecipient)
          | none => false
        let assets := convertToAssets value
        match insertRow s.transactions (ev.chainId, ev.hash, ev.logIndex)
            { blockNumber := ev.blockNumber, timestamp := ev.timestamp,
              type := if isFee then TxType.metaMorphoFee else TxType.metaMorphoTransfer,
              user := fromAddr, sender := fromAddr, receiver := some toAddr,
              vaultAddress := ev.address, marketId := none,
              vaultShares := value, vaultAssets := assets } with
        | none => none
        | some txs =>
            some { s with vaultBalances := balances2, transactions := txs }

/-- One Transfer log event (arguments of `Transfer(address,address,uint256)`
together with its delivery context). -/
structure TransferEv where
  ctx : EventCtx
  fromAddr : Addr
  toAddr : Addr
  value : Int
  deriving DecidableEq

/-- Apply a sequence of Transfer events in order; any handler error aborts
the whole sequence. -/
def applyTransfers (convertToAssets : Int → Int) (evs : List TransferEv) (s : Store) :
    Option Store :=
  match evs with
  | [] => some s
  | e :: rest =>
      match onTransfer convertToAssets e.ctx e.fromAddr e.toAddr e.value s with
      | none => none
      | some s1 => applyTransfers convertToAssets rest s1

/-- Sum of the `shares` column over all `vaultBalance` rows of one vault. -/
def sumShares (t : Table (ChainId × Addr × Addr) Int) (c : ChainId) (a : Addr) : Int :=
  match t with
  | [] => 0
  | (k, shares) :: rest =>
      (if k.1 = c ∧ k.2.1 = a then shares else 0) + sumShares rest c a

/-- The balance-ledger invariant: for every vault row, the sum of all its
balance rows equals its recorded total supply. -/
def sumInv (s : Store) : Prop :=
  ∀ (c : ChainId) (a : Addr) (row : VaultRow),
    findRow s.vaults (c, a) = some row → sumShares s.vaultBalances c a = row.totalSupply

/-! ### Concrete sample data for witnesses and counterexamples -/

/-- A sample vault row (timelock 86400 s, fee recipient address 8). -/
def demoVaultRow : VaultRow :=
  { asset := 2, decimalsUnderlying := 18, decimalsOffset := 0, owner := 3,
    pendingOwner := 0, curator := 0, guardian := 0, pendingGuardian := 0,
    pendingGuardianValidAt := 0, timelock := 86400, pendingTimelock := 0,
    pendingTimelockValidAt := 0, fee := 0, feeRecipient := 8, skimRecipient := 0,
    name := "Demo Vault", symbol := "DMV", totalSupply := 0, lastTotalAssets := 0,
    lostAssets := 0, supplyQueueLength := 0, withdrawQueueLength := 0,
    allocators := [] }

/-- A store holding exactly one vault, at (chain 1, address 5). -/
def demoStore : Store :=
  { vaults := [((1, 5), demoVaultRow)], vaultBalances := [], vaultConfigItems := [],
    vaultSupplyQueueItems := [], vaultWithdrawQueueItems := [], transactions := [] }

/-- The empty store. -/
def emptyStore : Store :=
  { vaults := [], vaultBalances := [], vaultConfigItems := [],
    vaultSupplyQueueItems := [], vaultWithdrawQueueItems := [], transactions := [] }

/-- A sample delivery context on chain 1, vault address 5, block time 1000. -/
def demoCtx : EventCtx :=
  { chainId := 1, address := 5, blockNumber := 10, timestamp := 1000, hash := 77,
    logIndex := 0 }

/-- A mint Transfer event: 250 shares to user 9. -/
def demoMint : TransferEv :=
  { ctx := demoCtx, fromAddr := 0, toAddr := 9, value := 250 }

/-- A burn Transfer event: 100 shares from user 9. -/
def demoBurn : TransferEv :=
  { ctx := { demoCtx with hash := 78 }, fromAddr := 9, toAddr := 0, value := 100 }

/-- The vault row after the mint and the burn. -/
def demoFinalRow : VaultRow := { demoVaultRow with totalSupply := 150 }

/-- The store after applying `demoMint` then `demoBurn` to `demoStore`. -/
def demoFinal : Store :=
  { vaults := [((1, 5), demoFinalRow)], vaultBalances := [((1, 5, 9), 150)],
    vaultConfigItems := [], vaultSupplyQueueItems := [], vaultWithdrawQueueItems := [],
    transactions := [] }

/-- The store after applying `demoMint` to `demoStore` once. -/
def demoMintOnce : Store :=
  { vaults := [((1, 5), { demoVaultRow with totalSupply := 250 })],
    vaultBalances := [((1, 5, 9), 250)], vaultConfigItems := [],
    vaultSupplyQueueItems := [], vaultWithdrawQueueItems := [], transactions := [] }

/-- The store after applying `demoMint` to `demoStore` twice. -/
def demoMintTwice : Store :=
  { vaults := [((1, 5), { demoVaultRow with totalSupply := 500 })],
    vaultBalances := [((1, 5, 9), 500)], vaultConfigItems := [],
    vaultSupplyQueueItems := [], vaultWithdrawQueueItems := [], transactions := [] }

/-- A vault row holding 400 shares for user 9. -/
def demoBalVaultRow : VaultRow := { demoVaultRow with totalSupply := 400 }

/-- A store where user 9 holds 400 shares of the vault at (1, 5). -/
def demoBalStore : Store :=
  { vaults := [((1, 5), demoBalVaultRow)], vaultBalances := [((1, 5, 9), 400)],
    vaultConfigItems := [], vaultSupplyQueueItems := [], vaultWithdrawQueueItems := [],
    transactions := [] }

/-- The store after burning 100 of user 9's shares from `demoBalStore` once. -/
def demoBurnOnce : Store :=
  { vaults := [((1, 5), { demoVaultRow with totalSupply := 300 })],
    vaultBalances := [((1, 5, 9), 300)], vaultConfigItems := [],
    vaultSupplyQueueItems := [], vaultWithdrawQueueItems := [], transactions := [] }

/-- The store after burning 100 of user 9's shares from `demoBalStore` twice. -/
def demoBurnTwice : Store :=
  { vaults := [((1, 5), { demoVaultRow with totalSupply := 200 })],
    vaultBalances := [((1, 5, 9), 200)], vaultConfigItems := [],
    vaultSupplyQueueItems := [], vaultWithdrawQueueItems := [], transactions := [] }

/-- The transaction row recorded when user 9 sends 150 shares to the fee
recipient (address 8) under the conversion x to 2x. -/
def demoXferTx : TxRow :=
  { blockNumber := 10, timestamp := 1000, type := TxType.metaMorphoFee, user := 9,
    sender := 9, receiver := some 8, vaultAddress := 5, marketId := none,
    vaultShares := 150, vaultAssets := 300 }

/-- The store after user 9 transfers 150 shares to address 8 on
`demoBalStore` (conversion x to 2x): the one state a replay then hits. -/
def demoXferOnce : Store :=
  { vaults := [((1, 5), demoBalVaultRow)],
    vaultBalances := [((1, 5, 9), 250), ((1, 5, 8), 150)], vaultConfigItems := [],
    vaultSupplyQueueItems := [], vaultWithdrawQueueItems := [],
    transactions := [((1, 77, 0), demoXferTx)] }

/-- A vault row whose recorded supply queue currently has five entries. -/
def demoQueueVaultRow : VaultRow := { demoVaultRow with supplyQueueLength := 5 }

/-- A store whose vault records a five-entry supply queue. -/
def demoQueueStore : Store :=
  { vaults := [((1, 5), demoQueueVaultRow)], vaultBalances := [], vaultConfigItems := [],
    vaultSupplyQueueItems := [], vaultWithdrawQueueItems := [], transactions := [] }

/-- The store after replacing the five-entry supply queue with [21, 22]:
ordinals 0 and 1 carry the new markets, ordinals 2 through 4 are null. -/
def demoQueueResult : Store :=
  { vaults := [((1, 5), { demoQueueVaultRow with supplyQueueLength := 2 })],
    vaultBalances := [], vaultConfigItems := [],
    vaultSupplyQueueItems := [((1, 5, 0), some 21), ((1, 5, 1), some 22),
      ((1, 5, 2), none), ((1, 5, 3), none), ((1, 5, 4), none)],
    vaultWithdrawQueueItems := [], transactions := [] }

/-- A config item with a live cap, a pending cap, and a pending removal. -/
def demoConfigRow : ConfigRow :=
  { cap := 500, pendingCap := 100, pendingCapValidAt := 87400, enabled := true,
    removableAt := 5555 }

/-- A store holding one vault and one config item for market 3. -/
def demoConfigStore : Store :=
  { vaults := [((1, 5), demoVaultRow)], vaultBalances := [],
    vaultConfigItems := [((1, 5, 3), demoConfigRow)],
    vaultSupplyQueueItems := [], vaultWithdrawQueueItems := [], transactions := [] }

/-! ### Table lemmas -/

theorem updateRow_none {K V : Type} [DecidableEq K] {t : Table K V} {k : K} {f : V → V}
    (h : findRow t k = none) : updateRow t k f = none := by
  induction t with
  | nil => rfl
  | cons hd tl ih =>
      obtain ⟨k', v⟩ := hd
      simp only [findRow] at h
      simp only [updateRow]
      by_cases hk : k' = k
      · simp [hk] at h
      · simp only [if_neg hk] at h ⊢
        rw [ih h]
        rfl

theorem updateRow_spec {K V : Type} [DecidableEq K] {t t' : Table K V} {k : K} {f : V → V}
    (h : updateRow t k f = some t') :
    ∃ v, findRow t k = some v ∧ findRow t' k = some (f v) ∧
      ∀ k', k' ≠ k → findRow t' k' = findRow t k' := by
  induction t generalizing t' with
  | nil => simp [updateRow] at h
  | cons hd tl ih =>
      obtain ⟨k', v⟩ := hd
      simp only [updateRow] at h
      by_cases hk : k' = k
      · subst hk
        simp only [if_pos rfl] at h
        cases h
        refine ⟨v, ?_, ?_, ?_⟩
        · simp [findRow]
        · simp [findRow]
        · intro k'' hk''
          have hne : ¬ k' = k'' := fun hh => hk'' hh.symm
          simp [findRow, hne]
      · simp only [if_neg hk, Option.map_eq_some'] at h
        obtain ⟨rt', hrt', rfl⟩ := h
        obtain ⟨w, hw1, hw2, hw3⟩ := ih hrt'
        refine ⟨w, ?_, ?_, ?_⟩
        · simp [findRow, if_neg hk, hw1]
        · simp [findRow, if_neg hk, hw2]
        · intro k'' hk''
          by_cases hk2 : k' = k''
          · simp [findRow, hk2]
          · simp [findRow, if_neg hk2, hw3 k'' hk'']

theorem updateRow_of_find {K V : Type} [DecidableEq K] {t : Table K V} {k : K} {v : V}
    (f : V → V) (h : findRow t k = some v) : ∃ t', updateRow t k f = some t' := by
  induction t with
  | nil => simp [findRow] at h
  | cons hd tl ih =>
      obtain ⟨k', w⟩ := hd
      simp only [findRow] at h
      simp only [updateRow]
      by_cases hk : k' = k
      · exact ⟨(k', f w) :: tl, by rw [if_pos hk]⟩
      · simp only [if_neg hk] at h ⊢
        obtain ⟨rt', hrt'⟩ := ih h
        refine ⟨(k', w) :: rt', ?_⟩
        rw [hrt']
        rfl

theorem findRow_upsert_self {K V : Type} [DecidableEq K] (t : Table K V) (k : K)
    (v : V) (f : V → V) :
    findRow (upsert t k v f) k = some ((findRow t k).elim v f) := by
  induction t with
  | nil => simp [upsert, findRow]
  | cons hd tl ih =>
      obtain ⟨k', w⟩ := hd
      simp only [upsert]
      by_cases hk : k' = k
      · simp [findRow, hk]
      · simp [findRow, if_neg hk, ih]

theorem findRow_upsert_ne {K V : Type} [DecidableEq K] (t : Table K V) (k : K)
    (v : V) (f : V → V) (k' : K) (h : k' ≠ k) :
    findRow (upsert t k v f) k' = findRow t k' := by
  induction t with
  | nil => simp [upsert, findRow, if_neg (Ne.symm h)]
  | cons hd tl ih =>
      obtain ⟨k'', w⟩ := hd
      simp only [upsert]
      by_cases hk : k'' = k
      · subst hk
        have hne : ¬ k'' = k' := fun hh => h hh.symm
        simp [findRow, hne]
      · simp [findRow, if_neg hk, ih]

theorem insertRow_of_find_none {K V : Type} [DecidableEq K] {t : Table K V} {k : K}
    (h : findRow t k = none) (v : V) : insertRow t k v = some (t ++ [(k, v)]) := by
  simp [insertRow, h]

theorem findRow_append_single {K V : Type} [DecidableEq K] (t : Table K V) (k : K) (v : V)
    (h : findRow t k = none) : findRow (t ++ [(k, v)]) k = some v := by
  induction t with
  | nil => simp [findRow]
  | cons hd tl ih =>
      obtain ⟨k', w⟩ := hd
      simp only [findRow] at h ⊢
      by_cases hk : k' = k
      · simp [hk] at h
      · simp only [if_neg hk] at h ⊢
        exact ih h

theorem insertRow_of_find_some {K V : Type} [DecidableEq K] {t : Table K V} {k : K}
    {w : V} (h : findRow t k = some w) (v : V) : insertRow t k v = none := by
  simp [insertRow, h]

theorem insertRow_spec {K V : Type} [DecidableEq K] {t t' : Table K V} {k : K} {v : V}
    (h : insertRow t k v = some t') : findRow t' k = some v := by
  unfold insertRow at h
  cases hf : findRow t k with
  | some w => rw [hf] at h; cases h
  | none =>
      rw [hf] at h
      cases h
      exact findRow_append_single t k v hf

theorem findRow_upsert_add_getD (t : Table (ChainId × Addr × Addr) Int)
    (k : ChainId × Addr × Addr) (v : Int) :
    (findRow (upsert t k v (fun x => x + v)) k).getD 0 = (findRow t k).getD 0 + v := by
  rw [findRow_upsert_self]
  cases findRow t k <;> simp

/-! ### Queue lemmas -/

theorem get?_eq_dite (q : List MarketId) (i : Nat) :
    q.get? i = if h : i < q.length then some (q.get ⟨i, h⟩) else none := by
  by_cases h : i < q.length
  · rw [dif_pos h]
    exact List.get?_eq_get h
  · rw [dif_neg h]
    exact List.get?_eq_none.mpr (by omega)

theorem conflictMarketId_getQueueItems (c : ChainId) (a : Addr) (L : Nat)
    (q : List MarketId) (j : Nat) (hj : j < max L q.length) :
    conflictMarketId (getQueueItems c a L q) j = q.get? j := by
  simp [conflictMarketId, getQueueItems, List.getElem?_range, hj]

theorem findRow_range_upsert (c : ChainId) (a : Addr) (n : Nat)
    (g m : Nat → Option MarketId)
    (t : Table (ChainId × Addr × Nat) (Option MarketId))
    (hm : ∀ j, j < n → m j = g j) (i : Nat) (hi : i < n) :
    findRow ((List.range n).foldl
        (fun acc ordinal => upsert acc (c, a, ordinal) (g ordinal) (fun _ => m ordinal)) t)
      (c, a, i) = some (g i) := by
  induction n generalizing i with
  | zero => omega
  | succ n ih =>
      rw [List.range_succ, List.foldl_append, List.foldl_cons, List.foldl_nil]
      by_cases hin : i = n
      · subst hin
        rw [findRow_upsert_self]
        have hmi := hm i (by omega)
        cases findRow ((List.range i).foldl
            (fun acc ordinal => upsert acc (c, a, ordinal) (g ordinal) (fun _ => m ordinal)) t)
            (c, a, i) <;> simp [hmi]
      · have hne : ((c, a, i) : ChainId × Addr × Nat) ≠ (c, a, n) := by
          intro hh
          injection hh with h1 h2
          injection h2 with h3 h4
          exact hin h4
        rw [findRow_upsert_ne _ _ _ _ _ hne]
        exact ih (fun j hj => hm j (by omega)) i (by omega)

theorem upsertQueueItems_getQueueItems (c : ChainId) (a : Addr) (L : Nat)
    (q : List MarketId) (t : Table (ChainId × Addr × Nat) (Option MarketId))
    (i : Nat) (hi : i < max L q.length) :
    findRow (upsertQueueItems (getQueueItems c a L q) t) (c, a, i) = some (q.get? i) := by
  have hm : ∀ j, j < max L q.length →
      conflictMarketId (getQueueItems c a L q) j = q.get? j :=
    fun j hj => conflictMarketId_getQueueItems c a L q j hj
  unfold upsertQueueItems
  unfold getQueueItems
  rw [List.foldl_map]
  exact findRow_range_upsert c a (max L q.length) (fun ordinal => q.get? ordinal)
    (fun ordinal => conflictMarketId (getQueueItems c a L q) ordinal) t hm i hi

/-! ### Sum-of-balances lemmas -/

theorem sumShares_upsert_add (t : Table (ChainId × Addr × Addr) Int) (c : ChainId)
    (a u : Addr) (v : Int) (c' : ChainId) (a' : Addr) :
    sumShares (upsert t (c, a, u) v (fun x => x + v)) c' a' =
      sumShares t c' a' + (if c = c' ∧ a = a' then v else 0) := by
  induction t with
  | nil =>
      simp only [upsert, sumShares]
      split <;> ring
  | cons hd tl ih =>
      obtain ⟨k, w⟩ := hd
      simp only [upsert]
      by_cases hk : k = (c, a, u)
      · subst hk
        simp only [sumShares, ih]
        split <;> ring_nf
      · simp only [if_neg hk, sumShares, ih]
        ring

theorem sumShares_update_sub {t t' : Table (ChainId × Addr × Addr) Int} {c : ChainId}
    {a u : Addr} {v : Int}
    (h : updateRow t (c, a, u) (fun x => x - v) = some t') (c' : ChainId) (a' : Addr) :
    sumShares t' c' a' = sumShares t c' a' - (if c = c' ∧ a = a' then v else 0) := by
  induction t generalizing t' with
  | nil => simp [updateRow] at h
  | cons hd tl ih =>
      obtain ⟨k, w⟩ := hd
      simp only [updateRow] at h
      by_cases hk : k = (c, a, u)
      · subst hk
        simp only [if_pos rfl] at h
        cases h
        simp only [sumShares]
        split <;> ring_nf
      · simp only [if_neg hk, Option.map_eq_some'] at h
        obtain ⟨rt', hrt', rfl⟩ := h
        simp only [sumShares, ih hrt']
        ring

/-! ### Balance-ledger invariant preservation -/

theorem sumInv_onTransfer {convertToAssets : Int → Int} {ev : EventCtx}
    {fromAddr toAddr : Addr} {value : Int} {s s' : Store}
    (hinv : sumInv s) (h : onTransfer convertToAssets ev fromAddr toAddr value s = some s') :
    sumInv s' := by
  unfold onTransfer at h
  by_cases hv : value = 0
  · simp only [if_pos hv] at h
    cases h
    exact hinv
  simp only [if_neg hv] at h
  by_cases hmint : fromAddr = zeroAddress
  · -- mint branch
    simp only [if_pos hmint] at h
    cases hu : updateRow s.vaults (ev.chainId, ev.address)
        (fun row => { row with totalSupply := row.totalSupply + value }) with
    | none => rw [hu] at h; cases h
    | some vaults' =>
        rw [hu] at h
        cases h
        obtain ⟨w, hw1, hw2, hw3⟩ := updateRow_spec hu
        intro c a row hrow
        by_cases hkey : (c, a) = (ev.chainId, ev.address)
        · injection hkey with h1 h2
          subst h1
          subst h2
          simp only at hrow
          rw [hw2] at hrow
          cases hrow
          rw [sumShares_upsert_add, hinv _ _ _ hw1]
          simp
        · have hne : (c, a) ≠ (ev.chainId, ev.address) := hkey
          simp only at hrow
          rw [hw3 _ hne] at hrow
          have hsum := hinv _ _ _ hrow
          have hcc : ¬ (ev.chainId = c ∧ ev.address = a) := by
            intro hcc'
            exact hne (by rw [hcc'.1, hcc'.2])
          rw [sumShares_upsert_add, if_neg hcc, add_zero]
          exact hsum
  simp only [if_neg hmint] at h
  by_cases hburn : toAddr = zeroAddress
  · -- burn branch
    simp only [if_pos hburn] at h
    cases hu : updateRow s.vaults (ev.chainId, ev.address)
        (fun row => { row with totalSupply := row.totalSupply - value }) with
    | none => rw [hu] at h; cases h
    | some vaults' =>
        cases hb : updateRow s.vaultBalances (ev.chainId, ev.address, fromAddr)
            (fun shares => shares - value) with
        | none => rw [hu, hb] at h; cases h
        | some balances' =>
            rw [hu, hb] at h
            cases h
            obtain ⟨w, hw1, hw2, hw3⟩ := updateRow_spec hu
            intro c a row hrow
            by_cases hkey : (c, a) = (ev.chainId, ev.address)
            · injection hkey with h1 h2
              subst h1
              subst h2
              simp only at hrow
              rw [hw2] at hrow
              cases hrow
              rw [sumShares_update_sub hb, hinv _ _ _ hw1]
              simp
            · have hne : (c, a) ≠ (ev.chainId, ev.address) := hkey
              simp only at hrow
              rw [hw3 _ hne] at hrow
              have hcc : ¬ (ev.chainId = c ∧ ev.address = a) := by
                intro hcc'
                exact hne (by rw [hcc'.1, hcc'.2])
              rw [sumShares_update_sub hb, if_neg hcc, sub_zero]
              exact hinv _ _ _ hrow
  · -- pure transfer branch
    simp only [if_neg hburn] at h
    cases hb : updateRow s.vaultBalances (ev.chainId, ev.address, fromAddr)
        (fun shares => shares - value) with
    | none => rw [hb] at h; cases h
    | some balances1 =>
        rw [hb] at h
        simp only at h
        cases hins : insertRow s.transactions (ev.chainId, ev.hash, ev.logIndex) _ with
        | none => rw [hins] at h; cases h
        | some txs =>
            rw [hins] at h
            cases h
            intro c a row hrow
            simp only at hrow
            have hsum := hinv _ _ _ hrow
            by_cases hcc : ev.chainId = c ∧ ev.address = a
            · simp only [sumShares_upsert_add, if_pos hcc,
                sumShares_update_sub hb, if_pos hcc]
              ring_nf
              exact hsum
            · simp only [sumShares_upsert_add, if_neg hcc,
                sumShares_update_sub hb, if_neg hcc, sub_zero, add_zero]
              exact hsum

theorem sumInv_applyTransfers {convertToAssets : Int → Int} {evs : List TransferEv}
    {s s' : Store} (hinv : sumInv s)
    (h : applyTransfers convertToAssets evs s = some s') : sumInv s' := by
  induction evs generalizing s with
  | nil =>
      simp only [applyTransfers] at h
      cases h
      exact hinv
  | cons e rest ih =>
      simp only [applyTransfers] at h
      cases h1 : onTransfer convertToAssets e.ctx e.fromAddr e.toAddr e.value s with
      | none => rw [h1] at h; cases h
      | some s1 =>
          rw [h1] at h
          exact ih (sumInv_onTransfer hinv h1) h

/-! ### C1 -/

/-- C1: for every vault and every sequence of applied Transfer events, the sum
of balance-row shares for that vault equals the vault's recorded totalSupply
after each event: the mint branch adds the value to both totalSupply and the
recipient balance, the burn branch subtracts it from both, and the transfer
branch moves it between two balances, so the invariant is preserved from any
state that satisfies it. -/
theorem C1_transfer_sum_invariant
    (convertToAssets : Int → Int) (evs : List TransferEv) (s s' : Store)
    (c : ChainId) (a : Addr) (row : VaultRow)
    (hinv : sumInv s) (happ : applyTransfers convertToAssets evs s = some s')
    (hrow : findRow s'.vaults (c, a) = some row) :
    sumShares s'.vaultBalances c a = row.totalSupply :=
  sumInv_applyTransfers hinv happ c a row hrow

/-- Witness for C1 at a concrete input: one vault, a mint of 250 then a burn
of 100, leaving balance sum 150 = totalSupply 150. -/
theorem C1_transfer_sum_invariant_witness :
    sumShares demoFinal.vaultBalances 1 5 = demoFinalRow.totalSupply :=
  C1_transfer_sum_invariant (fun x => x) [demoMint, demoBurn] demoStore demoFinal
    1 5 demoFinalRow
    (by
      intro c a row h
      simp only [demoStore, findRow] at h
      split at h
      · injection h with h2
        rw [← h2]
        rfl
      · simp at h)
    (by decide)
    (by decide)

/-! ### C2 -/

/-- C2 counterexample: a ReallocateSupply event whose supplied share and
asset amounts are both zero still writes a TransactionRecord row — the
reallocate handlers have no zero-amount guard, so the claim that every event
family filters zero amounts before any write is false. -/
theorem C2_zero_reallocate_writes_row :
    (onReallocateSupply demoCtx 4 11 0 0 emptyStore).map
        (fun s => s.transactions.length) = some 1 ∧
      emptyStore.transactions.length = 0 := by
  decide

/-- C2 (amended): deposit, withdrawal, fee-accrual, and transfer events with
a zero share amount produce no TransactionRecord and no balance mutation,
the zero check coming before any write; the reallocate-supply and
reallocate-withdraw handlers, however, have no zero-amount guard and insert
a TransactionRecord regardless of amount. -/
theorem C2_zero_amount_filtering
    (convertToAssets : Int → Int) (ev : EventCtx)
    (sender receiver owner fromAddr toAddr : Addr) (assets : Int) (s : Store) :
    onDeposit ev sender owner assets 0 s = some s ∧
      onWithdraw ev sender receiver owner assets 0 s = some s ∧
      onAccrueInterest convertToAssets ev 0 s = some s ∧
      onTransfer convertToAssets ev fromAddr toAddr 0 s = some s :=
  ⟨rfl, rfl, rfl, rfl⟩

/-! ### C3 -/

/-- C3 counterexample: an AccrueInterest event with nonzero fee shares whose
vault row is missing completes successfully as a silent no-op instead of
failing — `if (!vaultRecord) return;` swallows the missing record. -/
theorem C3_accrue_missing_vault_silent :
    onAccrueInterest (fun x => x) demoCtx 100 emptyStore = some emptyStore := by
  decide

/-- C3 (amended): events applied through a plain update do fail on a missing
target record and the error propagates (SubmitGuardian on a missing vault
row, SubmitMarketRemoval on a missing config row), but a fee-accrual
(AccrueInterest) event whose vault row is missing is silently skipped, not
fatal. -/
theorem C3_missing_record_handling
    (convertToAssets : Int → Int) (ev : EventCtx) (g : Addr) (mid : MarketId)
    (feeShares : Int) (s : Store)
    (hvault : findRow s.vaults (ev.chainId, ev.address) = none)
    (hcfg : findRow s.vaultConfigItems (ev.chainId, ev.address, mid) = none) :
    onSubmitGuardian ev g s = none ∧
      onSubmitMarketRemoval ev mid s = none ∧
      onAccrueInterest convertToAssets ev feeShares s = some s := by
  refine ⟨?_, ?_, ?_⟩
  · simp [onSubmitGuardian, updateRow_none hvault]
  · simp [onSubmitMarketRemoval, updateRow_none hcfg]
  · by_cases hf : feeShares = 0
    · simp [onAccrueInterest, hf]
    · simp [onAccrueInterest, hf, hvault]

/-- Witness for C3 (amended) at a concrete input: the empty store. -/
theorem C3_missing_record_handling_witness :
    onSubmitGuardian demoCtx 4 emptyStore = none ∧
      onSubmitMarketRemoval demoCtx 3 emptyStore = none ∧
      onAccrueInterest (fun x => x) demoCtx 9 emptyStore = some emptyStore :=
  C3_missing_record_handling (fun x => x) demoCtx 4 3 9 emptyStore (by decide) (by decide)

/-! ### C4 -/

/-- C4 counterexample: a SubmitMarketRemoval event for a (chain, vault,
market) whose ConfigItem row does not exist fails — the handler uses a plain
update, which errors on the missing row, rather than upserting. -/
theorem C4_submit_removal_missing_row_fails :
    onSubmitMarketRemoval demoCtx 3 demoStore = none := by
  decide

/-- C4 (amended): SubmitMarketRemoval requires the ConfigItem row to
pre-exist: on an existing row it sets removableAt = block timestamp +
current vault timelock, and on a missing ConfigItem row the event fails
rather than upserting. -/
theorem C4_submit_removal_updates_existing (ev : EventCtx) (mid : MarketId) (s : Store) :
    (∀ r, findRow s.vaultConfigItems (ev.chainId, ev.address, mid) = some r →
      ∃ s', onSubmitMarketRemoval ev mid s = some s' ∧
        findRow s'.vaultConfigItems (ev.chainId, ev.address, mid) =
          some { r with
            removableAt := ev.timestamp + vaultTimelock s ev.chainId ev.address }) ∧
    (findRow s.vaultConfigItems (ev.chainId, ev.address, mid) = none →
      onSubmitMarketRemoval ev mid s = none) := by
  constructor
  · intro r hr
    obtain ⟨t', ht'⟩ := updateRow_of_find
      (fun row => { row with
        removableAt := ev.timestamp + vaultTimelock s ev.chainId ev.address }) hr
    obtain ⟨v, hv1, hv2, hv3⟩ := updateRow_spec ht'
    rw [hr] at hv1
    injection hv1 with hv1'
    subst hv1'
    refine ⟨{ s with vaultConfigItems := t' }, ?_, ?_⟩
    · simp [onSubmitMarketRemoval, ht']
    · exact hv2
  · intro hnone
    simp [onSubmitMarketRemoval, updateRow_none hnone]

/-- Witness for C4 (amended) at a concrete input: market 3 of the vault at
(1, 5), with timelock 86400 and block time 1000. -/
theorem C4_submit_removal_updates_existing_witness :
    ∃ s', onSubmitMarketRemoval demoCtx 3 demoConfigStore = some s' ∧
      findRow s'.vaultConfigItems (1, 5, 3) =
        some { demoConfigRow with removableAt := 87400 } :=
  (C4_submit_removal_updates_existing demoCtx 3 demoConfigStore).1 demoConfigRow (by decide)

/-! ### C5 -/

/-- C5 counterexample: replaying the same mint Transfer event (250 shares to
user 9) against the resulting state neither leaves the state as after a
single application nor is rejected — the second application succeeds and
double-applies. -/
theorem C5_replay_not_idempotent :
    ¬ (((onTransfer (fun x => x) demoCtx 0 9 250 demoStore).bind
          (onTransfer (fun x => x) demoCtx 0 9 250)) =
        onTransfer (fun x => x) demoCtx 0 9 250 demoStore ∨
      ((onTransfer (fun x => x) demoCtx 0 9 250 demoStore).bind
          (onTransfer (fun x => x) demoCtx 0 9 250)) = none) := by
  decide

/-- C5 (amended): the Transfer handler has no replay detection: replaying a
mint adds the value to the vault's totalSupply and to the recipient's balance
a second time, and replaying a burn subtracts the value from both a second
time, whenever the replay succeeds; a replayed pure transfer is rejected by
the duplicate (chain, hash, logIndex) key of its transaction insert. -/
theorem C5_replay_double_applies
    (convertToAssets : Int → Int) (ev : EventCtx) (fromAddr toAddr : Addr)
    (value : Int) (s : Store) :
    (∀ s1 s2 r, value ≠ 0 →
      findRow s.vaults (ev.chainId, ev.address) = some r →
      onTransfer convertToAssets ev zeroAddress toAddr value s = some s1 →
      onTransfer convertToAssets ev zeroAddress toAddr value s1 = some s2 →
      (findRow s2.vaults (ev.chainId, ev.address)).map (fun w => w.totalSupply) =
          some (r.totalSupply + 2 * value) ∧
        (findRow s2.vaultBalances (ev.chainId, ev.address, toAddr)).getD 0 =
          (findRow s.vaultBalances (ev.chainId, ev.address, toAddr)).getD 0 + 2 * value) ∧
    (∀ s1 s2 r, value ≠ 0 → fromAddr ≠ zeroAddress →
      findRow s.vaults (ev.chainId, ev.address) = some r →
      onTransfer convertToAssets ev fromAddr zeroAddress value s = some s1 →
      onTransfer convertToAssets ev fromAddr zeroAddress value s1 = some s2 →
      (findRow s2.vaults (ev.chainId, ev.address)).map (fun w => w.totalSupply) =
          some (r.totalSupply - 2 * value) ∧
        (findRow s2.vaultBalances (ev.chainId, ev.address, fromAddr)).getD 0 =
          (findRow s.vaultBalances (ev.chainId, ev.address, fromAddr)).getD 0 - 2 * value) ∧
    (∀ s1, value ≠ 0 → fromAddr ≠ zeroAddress → toAddr ≠ zeroAddress →
      onTransfer convertToAssets ev fromAddr toAddr value s = some s1 →
      onTransfer convertToAssets ev fromAddr toAddr value s1 = none) := by
  refine ⟨?_, ?_, ?_⟩
  · -- mint replay double-applies
    intro s1 s2 r hv hr h1 h2
    unfold onTransfer at h1 h2
    rw [if_neg hv, if_pos rfl] at h1 h2
    cases hu1 : updateRow s.vaults (ev.chainId, ev.address)
        (fun row => { row with totalSupply := row.totalSupply + value }) with
    | none => rw [hu1] at h1; cases h1
    | some vaults1 =>
        rw [hu1] at h1
        cases h1
        obtain ⟨w1, hw11, hw12, hw13⟩ := updateRow_spec hu1
        rw [hr] at hw11
        injection hw11 with hw11'
        subst hw11'
        simp only at h2
        cases hu2 : updateRow vaults1 (ev.chainId, ev.address)
            (fun row => { row with totalSupply := row.totalSupply + value }) with
        | none => rw [hu2] at h2; cases h2
        | some vaults2 =>
            rw [hu2] at h2
            cases h2
            obtain ⟨w2, hw21, hw22, hw23⟩ := updateRow_spec hu2
            rw [hw12] at hw21
            injection hw21 with hw21'
            subst hw21'
            constructor
            · simp only [hw22, Option.map_some']
              congr 1
              ring
            · simp only [findRow_upsert_add_getD]
              ring
  · -- burn replay double-applies
    intro s1 s2 r hv hf hr h1 h2
    unfold onTransfer at h1 h2
    rw [if_neg hv, if_neg hf, if_pos rfl] at h1 h2
    cases hu1 : updateRow s.vaults (ev.chainId, ev.address)
        (fun row => { row with totalSupply := row.totalSupply - value }) with
    | none => rw [hu1] at h1; cases h1
    | some vaults1 =>
        cases hb1 : updateRow s.vaultBalances (ev.chainId, ev.address, fromAddr)
            (fun shares => shares - value) with
        | none => rw [hu1, hb1] at h1; cases h1
        | some balances1 =>
            rw [hu1, hb1] at h1
            cases h1
            obtain ⟨w1, hw11, hw12, hw13⟩ := updateRow_spec hu1
            rw [hr] at hw11
            injection hw11 with hw11'
            subst hw11'
            obtain ⟨b1, hb11, hb12, hb13⟩ := updateRow_spec hb1
            simp only at h2
            cases hu2 : updateRow vaults1 (ev.chainId, ev.address)
                (fun row => { row with totalSupply := row.totalSupply - value }) with
            | none => rw [hu2] at h2; cases h2
            | some vaults2 =>
                cases hb2 : updateRow balances1 (ev.chainId, ev.address, fromAddr)
                    (fun shares => shares - value) with
                | none => rw [hu2, hb2] at h2; cases h2
                | some balances2 =>
                    rw [hu2, hb2] at h2
                    cases h2
                    obtain ⟨w2, hw21, hw22, hw23⟩ := updateRow_spec hu2
                    rw [hw12] at hw21
                    injection hw21 with hw21'
                    subst hw21'
                    obtain ⟨b2, hb21, hb22, hb23⟩ := updateRow_spec hb2
                    rw [hb12] at hb21
                    injection hb21 with hb21'
                    subst hb21'
                    constructor
                    · simp only [hw22, Option.map_some']
                      congr 1
                      ring
                    · simp only [hb11, hb22, Option.getD_some]
                      ring
  · -- pure-transfer replay is rejected at its transaction insert
    intro s1 hv hf ht h1
    unfold onTransfer at h1 ⊢
    rw [if_neg hv, if_neg hf, if_neg ht] at h1 ⊢
    cases hb1 : updateRow s.vaultBalances (ev.chainId, ev.address, fromAddr)
        (fun shares => shares - value) with
    | none => rw [hb1] at h1; cases h1
    | some balances1 =>
        rw [hb1] at h1
        simp only at h1
        cases hins : insertRow s.transactions (ev.chainId, ev.hash, ev.logIndex) _ with
        | none => rw [hins] at h1; cases h1
        | some txs =>
            rw [hins] at h1
            cases h1
            simp only
            have htx1 := insertRow_spec hins
            cases hb2 : updateRow
                (upsert balances1 (ev.chainId, ev.address, toAddr) value
                  (fun shares => shares + value))
                (ev.chainId, ev.address, fromAddr) (fun shares => shares - value) with
            | none => rfl
            | some balances2 => simp only [insertRow_of_find_some htx1]

/-- Witness for C5 (amended) at concrete inputs: replaying `demoMint` doubles
totalSupply and user 9's balance to 500; replaying a burn of 100 on
`demoBalStore` drops both to 200; replaying the 150-share fee transfer is
rejected. -/
theorem C5_replay_double_applies_witness :
    ((findRow demoMintTwice.vaults (1, 5)).map (fun w => w.totalSupply) =
        some (demoVaultRow.totalSupply + 2 * 250) ∧
      (findRow demoMintTwice.vaultBalances (1, 5, 9)).getD 0 =
        (findRow demoStore.vaultBalances (1, 5, 9)).getD 0 + 2 * 250) ∧
    ((findRow demoBurnTwice.vaults (1, 5)).map (fun w => w.totalSupply) =
        some (demoBalVaultRow.totalSupply - 2 * 100) ∧
      (findRow demoBurnTwice.vaultBalances (1, 5, 9)).getD 0 =
        (findRow demoBalStore.vaultBalances (1, 5, 9)).getD 0 - 2 * 100) ∧
    onTransfer (fun x => 2 * x) demoCtx 9 8 150 demoXferOnce = none := by
  refine ⟨?_, ?_, ?_⟩
  · exact (C5_replay_double_applies (fun x => x) demoCtx 0 9 250 demoStore).1
      demoMintOnce demoMintTwice demoVaultRow (by decide) (by decide) (by decide)
      (by decide)
  · exact (C5_replay_double_applies (fun x => x) demoCtx 9 0 100 demoBalStore).2.1
      demoBurnOnce demoBurnTwice demoBalVaultRow (by decide) (by decide) (by decide)
      (by decide) (by decide)
  · exact (C5_replay_double_applies (fun x => 2 * x) demoCtx 9 8 150 demoBalStore).2.2
      demoXferOnce (by decide) (by decide) (by decide) (by decide)

/-! ### C6 -/

/-- C6: for a queue-replacement event (supply or withdraw) on an existing
vault with old recorded length L and incoming queue q, the vault's recorded
queue length becomes q.length, and for each ordinal i below max(L, q.length)
a QueueItem is written whose market id is q's i-th entry when i < q.length
and null otherwise. -/
theorem C6_queue_replacement (ev : EventCtx) (q : List MarketId) (s : Store) :
    (∀ s' row, findRow s.vaults (ev.chainId, ev.address) = some row →
      onSetSupplyQueue ev q s = some s' →
      (findRow s'.vaults (ev.chainId, ev.address)).map (fun r => r.supplyQueueLength) =
          some q.length ∧
        ∀ i, i < max row.supplyQueueLength q.length →
          findRow s'.vaultSupplyQueueItems (ev.chainId, ev.address, i) =
            some (if h : i < q.length then some (q.get ⟨i, h⟩) else none)) ∧
    (∀ s' row, findRow s.vaults (ev.chainId, ev.address) = some row →
      onSetWithdrawQueue ev q s = some s' →
      (findRow s'.vaults (ev.chainId, ev.address)).map (fun r => r.withdrawQueueLength) =
          some q.length ∧
        ∀ i, i < max row.withdrawQueueLength q.length →
          findRow s'.vaultWithdrawQueueItems (ev.chainId, ev.address, i) =
            some (if h : i < q.length then some (q.get ⟨i, h⟩) else none)) := by
  constructor
  · intro s' row hrow happ
    rw [onSetSupplyQueue, hrow] at happ
    cases hu : updateRow s.vaults (ev.chainId, ev.address)
        (fun r => { r with supplyQueueLength := q.length }) with
    | none => rw [hu] at happ; cases happ
    | some vaults' =>
        rw [hu] at happ
        simp only [Option.some.injEq] at happ
        subst happ
        obtain ⟨w, hw1, hw2, hw3⟩ := updateRow_spec hu
        constructor
        · simp only [hw2, Option.map_some']
        · intro i hi
          rw [← get?_eq_dite]
          exact upsertQueueItems_getQueueItems ev.chainId ev.address
            row.supplyQueueLength q s.vaultSupplyQueueItems i hi
  · intro s' row hrow happ
    rw [onSetWithdrawQueue, hrow] at happ
    cases hu : updateRow s.vaults (ev.chainId, ev.address)
        (fun r => { r with withdrawQueueLength := q.length }) with
    | none => rw [hu] at happ; cases happ
    | some vaults' =>
        rw [hu] at happ
        simp only [Option.some.injEq] at happ
        subst happ
        obtain ⟨w, hw1, hw2, hw3⟩ := updateRow_spec hu
        constructor
        · simp only [hw2, Option.map_some']
        · intro i hi
          rw [← get?_eq_dite]
          exact upsertQueueItems_getQueueItems ev.chainId ev.address
            row.withdrawQueueLength q s.vaultWithdrawQueueItems i hi

/-- Witness for C6 at a concrete input: replacing a five-entry supply queue
with [21, 22] leaves ordinal 3 null and ordinal 1 holding market 22. -/
theorem C6_queue_replacement_witness :
    findRow demoQueueResult.vaultSupplyQueueItems (1, 5, 3) = some none ∧
      findRow demoQueueResult.vaultSupplyQueueItems (1, 5, 1) = some (some 22) ∧
      (findRow demoQueueResult.vaults (1, 5)).map (fun r => r.supplyQueueLength) = some 2 := by
  have h := (C6_queue_replacement demoCtx [21, 22] demoQueueStore).1 demoQueueResult
    demoQueueVaultRow (by decide) (by decide)
  exact ⟨h.2 3 (by decide), h.2 1 (by decide), h.1⟩

/-! ### C7 -/

/-- C7: cap lifecycle — a cap submission sets pendingCap to the submitted
cap and pendingCapValidAt to block time plus the vault's current timelock; a
finalization with positive cap sets cap, clears the pending pair, and
enables the market; a revocation on an existing row zeroes the pending pair
and leaves the authoritative cap unchanged. -/
theorem C7_cap_lifecycle (ev : EventCtx) (mid : MarketId) (cap : Int) (s : Store) :
    (∃ r', findRow (onSubmitCap ev mid cap s).vaultConfigItems
          (ev.chainId, ev.address, mid) = some r' ∧
        r'.pendingCap = cap ∧
        r'.pendingCapValidAt = ev.timestamp + vaultTimelock s ev.chainId ev.address) ∧
    (∀ r, 0 < cap → findRow s.vaultConfigItems (ev.chainId, ev.address, mid) = some r →
      ∃ s', onSetCap ev mid cap s = some s' ∧
        findRow s'.vaultConfigItems (ev.chainId, ev.address, mid) =
          some { r with cap := cap, pendingCap := 0, pendingCapValidAt := 0,
                        enabled := true, removableAt := 0 }) ∧
    (∀ r, findRow s.vaultConfigItems (ev.chainId, ev.address, mid) = some r →
      findRow (onRevokePendingCap ev mid s).vaultConfigItems
          (ev.chainId, ev.address, mid) =
        some { r with pendingCap := 0, pendingCapValidAt := 0 }) := by
  refine ⟨?_, ?_, ?_⟩
  · simp only [onSubmitCap]
    rw [findRow_upsert_self]
    cases findRow s.vaultConfigItems (ev.chainId, ev.address, mid) with
    | none => exact ⟨_, rfl, rfl, rfl⟩
    | some r => exact ⟨_, rfl, rfl, rfl⟩
  · intro r hcap hr
    obtain ⟨t', ht'⟩ := updateRow_of_find
      (fun row =>
        if cap > 0 then
          { row with cap := cap, pendingCap := 0, pendingCapValidAt := 0,
                     enabled := true, removableAt := 0 }
        else
          { row with cap := cap, pendingCap := 0, pendingCapValidAt := 0 }) hr
    obtain ⟨v, hv1, hv2, hv3⟩ := updateRow_spec ht'
    rw [hr] at hv1
    injection hv1 with hv1'
    subst hv1'
    refine ⟨{ s with vaultConfigItems := t' }, ?_, ?_⟩
    · simp [onSetCap, ht']
    · show findRow t' (ev.chainId, ev.address, mid) = _
      rw [hv2, if_pos hcap]
  · intro r hr
    simp only [onRevokePendingCap]
    rw [findRow_upsert_self, hr]
    rfl

/-- Witness for C7 at a concrete input: submit(cap 100, timelock 86400, block
time 1000) yields pendingCapValidAt 87400; finalize(cap 100) sets the row to
(cap 100, pending pair 0, enabled, no removal timer); revoke zeroes the
pending pair and keeps cap 500. -/
theorem C7_cap_lifecycle_witness :
    (∃ r', findRow (onSubmitCap demoCtx 3 100 demoConfigStore).vaultConfigItems
          (1, 5, 3) = some r' ∧
        r'.pendingCap = 100 ∧ r'.pendingCapValidAt = 87400) ∧
    (∃ s', onSetCap demoCtx 3 100 demoConfigStore = some s' ∧
        findRow s'.vaultConfigItems (1, 5, 3) =
          some { demoConfigRow with cap := 100, pendingCap := 0, pendingCapValidAt := 0,
                                    enabled := true, removableAt := 0 }) ∧
    findRow (onRevokePendingCap demoCtx 3 demoConfigStore).vaultConfigItems (1, 5, 3) =
      some { demoConfigRow with pendingCap := 0, pendingCapValidAt := 0 } := by
  have h := C7_cap_lifecycle demoCtx 3 100 demoConfigStore
  exact ⟨h.1, h.2.1 demoConfigRow (by decide) (by decide), h.2.2 demoConfigRow (by decide)⟩

/-! ### C8 -/

/-- C8: for a non-zero transfer between two non-zero addresses on a vault
with an existing row (and an existing sender balance, with a fresh
transaction key), the recorded TransactionRecord is tagged MetaMorphoFee
exactly when the recipient is the vault's fee recipient and MetaMorphoTransfer
otherwise; its share amount is the transferred value and its asset amount is
the external conversion query's result on that value. -/
theorem C8_transfer_fee_classification
    (convertToAssets : Int → Int) (ev : EventCtx) (fromAddr toAddr : Addr) (value : Int)
    (s : Store) (r : VaultRow) (b : Int)
    (hv : value ≠ 0) (hf : fromAddr ≠ zeroAddress) (ht : toAddr ≠ zeroAddress)
    (hr : findRow s.vaults (ev.chainId, ev.address) = some r)
    (hb : findRow s.vaultBalances (ev.chainId, ev.address, fromAddr) = some b)
    (htx : findRow s.transactions (ev.chainId, ev.hash, ev.logIndex) = none) :
    ∃ s' tx, onTransfer convertToAssets ev fromAddr toAddr value s = some s' ∧
      findRow s'.transactions (ev.chainId, ev.hash, ev.logIndex) = some tx ∧
      tx.type = (if toAddr = r.feeRecipient then TxType.metaMorphoFee
                 else TxType.metaMorphoTransfer) ∧
      tx.vaultShares = value ∧ tx.vaultAssets = convertToAssets value := by
  obtain ⟨balances1, hb1⟩ := updateRow_of_find (fun shares => shares - value) hb
  simp only [onTransfer, if_neg hv, if_neg hf, if_neg ht, hb1, hr,
    insertRow_of_find_none htx]
  refine ⟨_, _, rfl, findRow_append_single _ _ _ htx, ?_, rfl, rfl⟩
  by_cases hfee : toAddr = r.feeRecipient <;> simp [hfee]

/-- Witness for C8 at a concrete input: user 9 transfers 150 shares to
address 8, the vault's fee recipient, and the record is tagged as a fee. -/
theorem C8_transfer_fee_classification_witness :
    ∃ s' tx, onTransfer (fun x => 2 * x) demoCtx 9 8 150 demoBalStore = some s' ∧
      findRow s'.transactions (1, 77, 0) = some tx ∧
      tx.type = (if (8 : Addr) = demoBalVaultRow.feeRecipient then TxType.metaMorphoFee
                 else TxType.metaMorphoTransfer) ∧
      tx.vaultShares = 150 ∧ tx.vaultAssets = 2 * 150 :=
  C8_transfer_fee_classification (fun x => 2 * x) demoCtx 9 8 150 demoBalStore
    demoBalVaultRow 400 (by decide) (by decide) (by decide) (by decide) (by decide)
    (by decide)

/-! ### C9 -/

/-- C9: ownership-transfer finalization and the name, symbol, and timelock
finalize events referencing a vault address with no Vault row complete
without error and without creating a row; on an existing row they update the
owner (clearing pendingOwner), the name, the symbol, or the timelock
(clearing the pending timelock pair) respectively. -/
theorem C9_constructor_emission_tolerance
    (ev : EventCtx) (newOwner : Addr) (newName newSymbol : String) (newTimelock : Int)
    (s : Store) :
    (findRow s.vaults (ev.chainId, ev.address) = none →
      onOwnershipTransferred ev newOwner s = some s ∧
      onSetName ev newName s = some s ∧
      onSetSymbol ev newSymbol s = some s ∧
      onSetTimelock ev newTimelock s = some s) ∧
    (∀ r, findRow s.vaults (ev.chainId, ev.address) = some r →
      (∃ s', onOwnershipTransferred ev newOwner s = some s' ∧
        findRow s'.vaults (ev.chainId, ev.address) =
          some { r with owner := newOwner, pendingOwner := zeroAddress }) ∧
      (∃ s', onSetName ev newName s = some s' ∧
        findRow s'.vaults (ev.chainId, ev.address) = some { r with name := newName }) ∧
      (∃ s', onSetSymbol ev newSymbol s = some s' ∧
        findRow s'.vaults (ev.chainId, ev.address) = some { r with symbol := newSymbol }) ∧
      (∃ s', onSetTimelock ev newTimelock s = some s' ∧
        findRow s'.vaults (ev.chainId, ev.address) =
          some { r with timelock := newTimelock, pendingTimelock := 0,
                        pendingTimelockValidAt := 0 })) := by
  constructor
  · intro hnone
    refine ⟨?_, ?_, ?_, ?_⟩
    · simp [onOwnershipTransferred, updateRow_none hnone]
    · simp [onSetName, updateRow_none hnone]
    · simp [onSetSymbol, updateRow_none hnone]
    · simp [onSetTimelock, updateRow_none hnone]
  · intro r hr
    refine ⟨?_, ?_, ?_, ?_⟩
    · obtain ⟨t', ht'⟩ := updateRow_of_find
        (fun row => { row with owner := newOwner, pendingOwner := zeroAddress }) hr
      obtain ⟨v, hv1, hv2, hv3⟩ := updateRow_spec ht'
      rw [hr] at hv1
      injection hv1 with hv1'
      subst hv1'
      exact ⟨{ s with vaults := t' }, by simp [onOwnershipTransferred, ht'], hv2⟩
    · obtain ⟨t', ht'⟩ := updateRow_of_find (fun row => { row with name := newName }) hr
      obtain ⟨v, hv1, hv2, hv3⟩ := updateRow_spec ht'
      rw [hr] at hv1
      injection hv1 with hv1'
      subst hv1'
      exact ⟨{ s with vaults := t' }, by simp [onSetName, ht'], hv2⟩
    · obtain ⟨t', ht'⟩ := updateRow_of_find (fun row => { row with symbol := newSymbol }) hr
      obtain ⟨v, hv1, hv2, hv3⟩ := updateRow_spec ht'
      rw [hr] at hv1
      injection hv1 with hv1'
      subst hv1'
      exact ⟨{ s with vaults := t' }, by simp [onSetSymbol, ht'], hv2⟩
    · obtain ⟨t', ht'⟩ := updateRow_of_find
        (fun row => { row with timelock := newTimelock, pendingTimelock := 0,
                               pendingTimelockValidAt := 0 }) hr
      obtain ⟨v, hv1, hv2, hv3⟩ := updateRow_spec ht'
      rw [hr] at hv1
      injection hv1 with hv1'
      subst hv1'
      exact ⟨{ s with vaults := t' }, by simp [onSetTimelock, ht'], hv2⟩

/-- Witness for C9 at concrete inputs: on the empty store the
ownership-transfer event is a silent no-op; on `demoStore` the timelock
finalize updates the timelock and clears the pending pair. -/
theorem C9_constructor_emission_tolerance_witness :
    onOwnershipTransferred demoCtx 4 emptyStore = some emptyStore ∧
      (∃ s', onSetTimelock demoCtx 7200 demoStore = some s' ∧
        findRow s'.vaults (1, 5) =
          some { demoVaultRow with timelock := 7200, pendingTimelock := 0,
                                   pendingTimelockValidAt := 0 }) := by
  refine ⟨?_, ?_⟩
  · exact ((C9_constructor_emission_tolerance demoCtx 4 "A" "B" 7200 emptyStore).1
      (by decide)).1
  · exact ((C9_constructor_emission_tolerance demoCtx 4 "A" "B" 7200 demoStore).2
      demoVaultRow (by decide)).2.2.2

/-! ### C10 -/

/-- C10: a cap finalization with cap 0 on an existing ConfigItem row sets
cap to 0 and clears the pending pair while leaving the enabled flag and the
removableAt timestamp exactly as they were. -/
theorem C10_setcap_zero_frame (ev : EventCtx) (mid : MarketId) (s : Store) (r : ConfigRow)
    (hr : findRow s.vaultConfigItems (ev.chainId, ev.address, mid) = some r) :
    ∃ s', onSetCap ev mid 0 s = some s' ∧
      findRow s'.vaultConfigItems (ev.chainId, ev.address, mid) =
        some { r with cap := 0, pendingCap := 0, pendingCapValidAt := 0 } ∧
      (findRow s'.vaultConfigItems (ev.chainId, ev.address, mid)).map
          (fun x => x.enabled) = some r.enabled ∧
      (findRow s'.vaultConfigItems (ev.chainId, ev.address, mid)).map
          (fun x => x.removableAt) = some r.removableAt := by
  obtain ⟨t', ht'⟩ := updateRow_of_find
    (fun row =>
      if (0 : Int) > 0 then
        { row with cap := 0, pendingCap := 0, pendingCapValidAt := 0,
                   enabled := true, removableAt := 0 }
      else
        { row with cap := 0, pendingCap := 0, pendingCapValidAt := 0 }) hr
  obtain ⟨v, hv1, hv2, hv3⟩ := updateRow_spec ht'
  rw [hr] at hv1
  injection hv1 with hv1'
  subst hv1'
  have hneg : ¬ ((0 : Int) > 0) := by norm_num
  refine ⟨{ s with vaultConfigItems := t' }, ?_, ?_, ?_, ?_⟩
  · simp only [onSetCap]
    rw [ht']
  · show findRow t' (ev.chainId, ev.address, mid) = _
    rw [hv2, if_neg hneg]
  · show (findRow t' (ev.chainId, ev.address, mid)).map (fun x => x.enabled) = _
    rw [hv2, if_neg hneg]
    rfl
  · show (findRow t' (ev.chainId, ev.address, mid)).map (fun x => x.removableAt) = _
    rw [hv2, if_neg hneg]
    rfl

/-- Witness for C10 at a concrete input: cap finalization with cap 0 on
market 3, whose row is enabled with a pending removal at 5555; the flag and
the removal timer survive unchanged. -/
theorem C10_setcap_zero_frame_witness :
    ∃ s', onSetCap demoCtx 3 0 demoConfigStore = some s' ∧
      findRow s'.vaultConfigItems (1, 5, 3) =
        some { demoConfigRow with cap := 0, pendingCap := 0, pendingCapValidAt := 0 } ∧
      (findRow s'.vaultConfigItems (1, 5, 3)).map (fun x => x.enabled) = some true ∧
      (findRow s'.vaultConfigItems (1, 5, 3)).map (fun x => x.removableAt) = some 5555 :=
  C10_setcap_zero_frame demoCtx 3 demoConfigStore demoConfigRow (by decide)

end Ponder
